import Mathlib

/-!
Shallow embedding of the nutrient query and guideline-matching engine of
`usda-nutrition-visualizer` (files `src/nutrient_processor.py` and
`src/nutritional_guidelines.py`).

Conventions used throughout:
* Python floats are modelled as rationals (`ℚ`); every numeric literal in the
  source is an exactly representable decimal, and the claims under study are
  about which constants and comparisons occur, not about rounding.
* Python strings are modelled as Lean `String`s; `str.lower` is modelled by
  mapping `Char.toLower` over the characters (the data in play is ASCII).
* Polars dataframes are modelled as a `Table`: the ordered column list plus an
  ordered list of `FoodRecord` rows.  A null cell is `Option.none`.
* `str.contains` in polars applies its argument as a regex.  Tier 2/3 of
  `get_food_nutrients` escape the query first (`re.escape`), so those call
  sites are exactly literal substring containment and are embedded as such.
  `get_nutrient_profile` passes the raw lowercased query as the pattern; its
  matcher is therefore embedded against an arbitrary `RegexEngine` parameter
  whose behavior is pinned down only on patterns free of regex
  metacharacters (where every engine is literal containment), and whose
  compilation step may fail — the polars `ComputeError` an invalid pattern
  raises.  Statements about the profile either quantify over every engine
  under a metacharacter-free hypothesis, or use concrete
  metacharacter-free inputs on which all engines agree.
* Fallible code is embedded in `Except String`: a Python `ZeroDivisionError`
  becomes `Except.error "ZeroDivisionError"`.
-/

/-- Is `need` a leading piece of `hay`?  (Python/`polars` substring helper.) -/
def leadsChars : List Char → List Char → Bool
  | [], _ => true
  | _ :: _, [] => false
  | a :: as, b :: bs => a == b && leadsChars as bs

/-- Does `hay` contain `need` as a contiguous run?  Models Python `need in hay`
for strings (the empty needle is always contained). -/
def hasSubChars : List Char → List Char → Bool
  | [], need => need.isEmpty
  | h :: t, need => leadsChars need (h :: t) || hasSubChars t need

/-- `strContains hay need` models Python `need in hay` / a literal-pattern
`str.contains` in polars. -/
def strContains (hay need : String) : Bool :=
  hasSubChars hay.data need.data

/-- Models Python `str.lower()` for the ASCII data in play. -/
def lowerString (s : String) : String :=
  ⟨s.data.map Char.toLower⟩

/-- Models Python `str.strip()` (whitespace on both ends). -/
def trimmedString (s : String) : String :=
  ⟨((s.data.dropWhile Char.isWhitespace).reverse.dropWhile Char.isWhitespace).reverse⟩

/-- Models Python `s.replace("_", "")`. -/
def stripUnderscores (s : String) : String :=
  ⟨s.data.filter (fun c => c ≠ '_')⟩

/-- One-pass scan modelling `re.sub(r'\([^)]*\)', '', s)`.  The first
argument is `none` outside a parenthesis group and `some pending` after an
as-yet-unclosed `'('`, with `pending` the characters seen since it, reversed.
A group `\([^)]*\)` is a `'('` up to the first `')'` after it; such a group
is deleted, while a `'('` with no later `')'` (and everything after it) is
kept verbatim, exactly as the regex leaves it. -/
def dropParenAux : Option (List Char) → List Char → List Char
  | none, [] => []
  | some pending, [] => '(' :: pending.reverse
  | none, c :: t =>
    if c = '(' then dropParenAux (some []) t else c :: dropParenAux none t
  | some pending, c :: t =>
    if c = ')' then dropParenAux none t else dropParenAux (some (c :: pending)) t

/-- Models `re.sub(r'\([^)]*\)', '', s)` on strings. -/
def stripParens (s : String) : String :=
  ⟨dropParenAux none s.data⟩

/-! ## Guideline registry (`nutritional_guidelines.py`) -/

/-- `NutrientRequirement` dataclass. -/
structure NutrientRequirement where
  rda_male : Option ℚ := none
  rda_female : Option ℚ := none
  upper_limit : Option ℚ := none
  unit : String := ""
  name : String := ""
deriving DecidableEq, Repr

/-- The hardcoded registry of `_load_official_guidelines`, in source
(= Python dict insertion) order. -/
def guidelines : List (String × NutrientRequirement) :=
  [ ("vitamin_a_ug", ⟨some 900, some 700, some 3000, "μg", "Vitamin A"⟩),
    ("vitamin_d_ug", ⟨some 15, some 15, some 100, "μg", "Vitamin D"⟩),
    ("vitamin_e_mg", ⟨some 15, some 15, some 1000, "mg", "Vitamin E"⟩),
    ("vitamin_k_ug", ⟨some 120, some 90, none, "μg", "Vitamin K"⟩),
    ("vitamin_c_mg", ⟨some 90, some 75, some 2000, "mg", "Vitamin C"⟩),
    ("thiamin_mg", ⟨some 1.2, some 1.1, none, "mg", "Thiamin (B1)"⟩),
    ("riboflavin_mg", ⟨some 1.3, some 1.1, none, "mg", "Riboflavin (B2)"⟩),
    ("niacin_mg", ⟨some 16, some 14, some 35, "mg", "Niacin (B3)"⟩),
    ("vitamin_b6_mg", ⟨some 1.3, some 1.3, some 100, "mg", "Vitamin B6"⟩),
    ("folate_ug", ⟨some 400, some 400, some 1000, "μg", "Folate"⟩),
    ("vitamin_b12_ug", ⟨some 2.4, some 2.4, none, "μg", "Vitamin B12"⟩),
    ("calcium_mg", ⟨some 1000, some 1000, some 2500, "mg", "Calcium"⟩),
    ("iron_mg", ⟨some 8, some 18, some 45, "mg", "Iron"⟩),
    ("magnesium_mg", ⟨some 400, some 310, some 350, "mg", "Magnesium"⟩),
    ("phosphorus_mg", ⟨some 700, some 700, some 4000, "mg", "Phosphorus"⟩),
    ("potassium_mg", ⟨some 3400, some 2600, none, "mg", "Potassium"⟩),
    ("sodium_mg", ⟨some 1500, some 1500, some 2300, "mg", "Sodium"⟩),
    ("zinc_mg", ⟨some 11, some 8, some 40, "mg", "Zinc"⟩),
    ("copper_mg", ⟨some 0.9, some 0.9, some 10, "mg", "Copper"⟩),
    ("selenium_ug", ⟨some 55, some 55, some 400, "μg", "Selenium"⟩),
    ("manganese_mg", ⟨some 2.3, some 1.8, some 11, "mg", "Manganese"⟩),
    ("chromium_ug", ⟨some 35, some 25, none, "μg", "Chromium"⟩),
    ("molybdenum_ug", ⟨some 45, some 45, some 2000, "μg", "Molybdenum"⟩),
    ("iodine_ug", ⟨some 150, some 150, some 1100, "μg", "Iodine"⟩),
    ("protein_g", ⟨some 56, some 46, none, "g", "Protein"⟩),
    ("fiber_g", ⟨some 38, some 25, none, "g", "Dietary Fiber"⟩),
    ("saturated_fat_g", ⟨none, none, some 20, "g", "Saturated Fat"⟩),
    ("cholesterol_mg", ⟨none, none, some 300, "mg", "Cholesterol"⟩),
    ("sugars_g", ⟨none, none, some 50, "g", "Added Sugars"⟩) ]

/-- Dictionary lookup (`self.guidelines[key]` / `key in self.guidelines`). -/
def lookupGuideline : List (String × NutrientRequirement) → String → Option NutrientRequirement
  | [], _ => none
  | (k, v) :: rest, key => if k = key then some v else lookupGuideline rest key

/-- View returned by `get_requirement` (the non-empty dict case): fields
`nutrient`, `rda`, `upper_limit`, `unit` and the `gender_specific` pair. -/
structure Requirement where
  nutrient : String
  rda : Option ℚ
  upper_limit : Option ℚ
  unit : String
  male : Option ℚ
  female : Option ℚ
deriving DecidableEq, Repr

/-- `NutritionalGuidelines.get_requirement`.  An unknown key returns `none`
(the empty dict `{}` in the source). -/
def get_requirement (nutrient_key gender : String) : Option Requirement :=
  match lookupGuideline guidelines nutrient_key with
  | none => none
  | some req =>
    let rda_value : Option ℚ :=
      if gender = "male" ∧ req.rda_male.isSome then req.rda_male
      else if gender = "female" ∧ req.rda_female.isSome then req.rda_female
      else
        match req.rda_male, req.rda_female with
        | some m, some f => some ((m + f) / 2)
        | some m, none => some m
        | none, some f => some f
        | none, none => none
    some ⟨req.name, rda_value, req.upper_limit, req.unit, req.rda_male, req.rda_female⟩

/-- Specification-side combination of the two sex-specific RDAs for the
`average` case, written from the spec's words: the mean when both are
defined, the single defined one otherwise, absent when neither is. -/
def averageRda : Option ℚ → Option ℚ → Option ℚ
  | some m, some f => some ((m + f) / 2)
  | some m, none => some m
  | none, some f => some f
  | none, none => none

/-- Fuzzy-matching loop of `match_nutrient_key`: iterate over the registry in
definition order; `key_base = key.split("_")[0]`; accept the key when
`key_base` occurs in the lowercased identifier and the underscore-stripped key
occurs in the underscore-stripped identifier (original case). -/
def fuzzyScan : List (String × NutrientRequirement) → String → String → String
  | [], _, _ => ""
  | (key, _) :: rest, lowerCol, col =>
    let keyBase : String := ⟨key.data.takeWhile (fun c => c ≠ '_')⟩
    if strContains lowerCol keyBase &&
        strContains (stripUnderscores col) (stripUnderscores key) then key
    else fuzzyScan rest lowerCol col

/-- `NutritionalGuidelines.match_nutrient_key`. -/
def match_nutrient_key (nutrient_column : String) : String :=
  if (lookupGuideline guidelines nutrient_column).isSome then nutrient_column
  else fuzzyScan guidelines (lowerString nutrient_column) nutrient_column

/-! ## The nutrient table (`nutrient_processor.py` data model) -/

/-- One row of the food dataframe.  The five reserved metadata columns other
than `description` and `serving_size` play no role in the embedded logic;
nutrient cells live in the association list (a missing entry or a `none`
value is a null cell). -/
structure FoodRecord where
  description : String
  serving_size : ℚ
  nutrients : List (String × Option ℚ)
deriving DecidableEq, Repr

/-- The dataframe: its column list (in dataframe order) and its rows. -/
structure Table where
  cols : List String
  rows : List FoodRecord
deriving DecidableEq, Repr

/-- The five reserved metadata columns. -/
def excludedCols : List String :=
  ["fdc_id", "description", "data_type", "serving_size", "serving_unit"]

/-- `get_available_nutrients`: all columns except the reserved five, in
column order. -/
def availableNutrients (t : Table) : List String :=
  t.cols.filter (fun c => ¬ excludedCols.contains c)

/-- Cell access `record[col][0]`; `none` is a null cell. -/
def getVal (r : FoodRecord) (c : String) : Option ℚ :=
  (r.nutrients.lookup c).join

/-! ## Cleaning (`_clean_data`) -/

/-- Null-filling step of `_clean_data`: every cell in a non-reserved column
has its null replaced by `0.0`; reserved columns are left alone. -/
def fillRecord (r : FoodRecord) : FoodRecord :=
  { r with nutrients := r.nutrients.map (fun p =>
      if excludedCols.contains p.1 then p else (p.1, some (p.2.getD 0))) }

/-- Semantics of polars `df.unique(subset=["description"])` with its default
`keep="any"`, `maintain_order=False`: the output keeps exactly one input row
per distinct description, with no promise about which occurrence survives or
in what order the survivors appear.  Any such output is a permitted result. -/
def uniqueByDescription (input output : List FoodRecord) : Prop :=
  (∀ r ∈ output, r ∈ input) ∧
  (output.map FoodRecord.description).Nodup ∧
  (∀ r ∈ input, ∃ s ∈ output, s.description = r.description)

instance (input output : List FoodRecord) :
    Decidable (uniqueByDescription input output) := by
  unfold uniqueByDescription; infer_instance

/-- `_clean_data` on the row list: some permitted `unique` result, then the
null-filling pass. -/
def cleanRel (input output : List FoodRecord) : Prop :=
  ∃ mid, uniqueByDescription input mid ∧ output = mid.map fillRecord

/-- Specification-side deduplication, written from the spec's words:
keep the first occurrence of each distinct description, order-stable. -/
def dedupFirstAux : List String → List FoodRecord → List FoodRecord
  | _, [] => []
  | seen, r :: rs =>
    if seen.contains r.description then dedupFirstAux seen rs
    else r :: dedupFirstAux (r.description :: seen) rs

/-- Specification-side deduplication entry point (first occurrence wins). -/
def dedupFirstWins (l : List FoodRecord) : List FoodRecord :=
  dedupFirstAux [] l

/-! ## Food resolution (`get_food_nutrients`) and the profile's matcher -/

/-- Tier 1 of `get_food_nutrients`: exact case-sensitive description match. -/
def exactMatches (t : Table) (q : String) : List FoodRecord :=
  t.rows.filter (fun r => r.description == q)

/-- The lowercased-substring filter of tiers 2 and 3 of
`get_food_nutrients`: there the query passes through `re.escape`, so the
regex polars receives is the query's own literal and `str.contains` is
exactly literal substring containment.  (The profile's matcher, which passes
the query UNescaped, is `profileFirstRx` below, not this filter.) -/
def subFilter (t : Table) (q : String) : List FoodRecord :=
  t.rows.filter (fun r => strContains (lowerString r.description) (lowerString q))

/-- The tiered matching of `get_food_nutrients`: exact match, then lowercased
escaped substring, then the same on the parenthesis-stripped trimmed query. -/
def resolveMatches (t : Table) (q : String) : List FoodRecord :=
  let exact := exactMatches t q
  if exact.isEmpty then
    let m2 := subFilter t q
    if m2.isEmpty then subFilter t (trimmedString (stripParens q))
    else m2
  else exact

/-- The first record of the tiered resolution (`matches[0]`). -/
def resolveFirst (t : Table) (q : String) : Option FoodRecord :=
  (resolveMatches t q).head?

/-- `get_food_nutrients`: melt the matched rows to long form
(`description`, `nutrient`, `amount`), one nutrient column at a time, and
keep only strictly positive amounts (a null never passes the `> 0` filter). -/
def get_food_nutrients (t : Table) (q : String) : List (String × String × ℚ) :=
  (availableNutrients t).flatMap (fun n =>
    (resolveMatches t q).filterMap (fun r =>
      match getVal r n with
      | some v => if 0 < v then some (r.description, n, v) else none
      | none => none))

/-- The characters special to the regex dialect polars applies to
`str.contains` patterns.  A pattern containing none of them matches exactly
as its own literal. -/
def regexMetaChars : List Char :=
  ['.', '^', '$', '*', '+', '?', '(', ')', '[', ']', '\x7b', '\x7d', '|', '\\']

/-- Is the pattern free of regex metacharacters?  On this fragment every
regex engine is literal substring containment. -/
def regexFreeB (s : String) : Bool :=
  s.data.all (fun c => !(regexMetaChars.contains c))

/-- `get_nutrient_profile` passes the raw lowercased query to `str.contains`,
which compiles it as a regex: an invalid pattern raises a polars
`ComputeError` (aborting the filter call and the aggregation), a valid one
is matched with regex semantics.  The engine itself is outside this
embedding; it enters as a parameter constrained only where its behavior is
forced: on a metacharacter-free pattern, compilation succeeds and the
matcher is literal substring containment. -/
structure RegexEngine where
  compileRx : String → Except String (String → Bool)
  literal_ok : ∀ pat, regexFreeB pat = true →
    ∃ f, compileRx pat = Except.ok f ∧ ∀ hay, f hay = strContains hay pat

/-- One concrete engine satisfying the interface (it matches literal
patterns and reports a compile error on anything outside the modelled
fragment); used to instantiate closed statements whose inputs are
metacharacter-free, where every engine agrees with it. -/
def literalEngine : RegexEngine where
  compileRx := fun pat =>
    if regexFreeB pat then Except.ok (fun hay => strContains hay pat)
    else Except.error "ComputeError"
  literal_ok := fun pat h =>
    ⟨fun hay => strContains hay pat, by simp [h], fun _ => rfl⟩

/-- The matching step of `get_nutrient_profile` under a regex engine: the
raw lowercased query is compiled (a bad pattern aborts the whole call), each
row's lowercased description is tested, and the first hit is taken
(`matches[0]`). -/
def profileFirstRx (E : RegexEngine) (t : Table) (q : String) :
    Except String (Option FoodRecord) :=
  match E.compileRx (lowerString q) with
  | Except.error e => Except.error e
  | Except.ok f =>
    Except.ok ((t.rows.filter (fun r => f (lowerString r.description))).head?)

/-- The profile's matching step restricted to the metacharacter-free
fragment, where it is the first row whose lowercased description contains
the lowercased query; `profileFirstRx_literal` proves every engine agrees
with it there. -/
def profileFirst (t : Table) (q : String) : Option FoodRecord :=
  (subFilter t q).head?

/-! ## Ranking (`get_top_foods_for_nutrient`) -/

/-- One output row of `get_top_foods_for_nutrient` (after the `rename`, the
per-serving amount sits in the column named `amount_per_100g`). -/
structure RankedRow where
  description : String
  amount_per_100g : ℚ
  serving_size : ℚ
  amount_per_ounce : ℚ
deriving DecidableEq, Repr

/-- Descending insertion by `amount_per_ounce` (ties keep earlier rows first,
one permitted outcome of the polars sort). -/
def insertRowDesc (r : RankedRow) : List RankedRow → List RankedRow
  | [] => [r]
  | x :: xs =>
    if x.amount_per_ounce < r.amount_per_ounce then r :: x :: xs
    else x :: insertRowDesc r xs

/-- Descending sort by `amount_per_ounce`. -/
def sortRowsDesc (l : List RankedRow) : List RankedRow :=
  l.foldr insertRowDesc []

/-- `get_top_foods_for_nutrient`: pick the first column whose lowercased name
contains the lowercased nutrient name, keep rows with a strictly positive
amount in that column, attach `amount_per_ounce = amount * 28.35 /
serving_size` (the source's constant, Python float literal `28.35`), sort
descending and truncate to `top_n`. -/
def get_top_foods_for_nutrient (t : Table) (nutrient_name : String) (top_n : Nat) :
    List RankedRow :=
  match (t.cols.filter (fun c =>
      strContains (lowerString c) (lowerString nutrient_name))).head? with
  | none => []
  | some ncol =>
    let rows := t.rows.filterMap (fun r =>
      match getVal r ncol with
      | some v =>
        if 0 < v then
          some (⟨r.description, v, r.serving_size, v * 28.35 / r.serving_size⟩ : RankedRow)
        else none
      | none => none)
    (sortRowsDesc rows).take top_n

/-! ## Aggregation (`get_nutrient_profile`) -/

/-- `nutrient_totals[nutrient] += scaled` on an insertion-ordered mapping. -/
def addTotal : List (String × ℚ) → String → ℚ → List (String × ℚ)
  | [], n, v => [(n, v)]
  | (m, w) :: rest, n, v =>
    if m = n then (m, w + v) :: rest else (m, w) :: addTotal rest n v

/-- One iteration of the `for item in food_items` loop under a regex engine:
compile-and-match the raw lowercased query (a bad pattern aborts the call);
when a first matching row exists, fold every non-null nutrient cell into the
totals as `value * amount_g / serving_size`.  A zero `serving_size` raises
`ZeroDivisionError` at the first such division, aborting the whole call —
exactly the Python float semantics. -/
def itemStepRx (E : RegexEngine) (t : Table) (totals : List (String × ℚ))
    (item : String × ℚ) : Except String (List (String × ℚ)) :=
  match profileFirstRx E t item.1 with
  | Except.error e => Except.error e
  | Except.ok none => Except.ok totals
  | Except.ok (some r) =>
    (availableNutrients t).foldlM (fun acc n =>
      match getVal r n with
      | none => Except.ok acc
      | some v =>
        if r.serving_size = 0 then Except.error "ZeroDivisionError"
        else Except.ok (addTotal acc n (v * item.2 / r.serving_size))) totals

/-- The totals pass of `get_nutrient_profile` over all items, under a regex
engine. -/
def nutrientTotalsRx (E : RegexEngine) (t : Table) (items : List (String × ℚ)) :
    Except String (List (String × ℚ)) :=
  items.foldlM (itemStepRx E t) []

/-- `itemStepRx` restricted to the metacharacter-free fragment (every engine
agrees with it there, see `itemStepRx_literal`). -/
def itemStep (t : Table) (totals : List (String × ℚ)) (item : String × ℚ) :
    Except String (List (String × ℚ)) :=
  match profileFirst t item.1 with
  | none => Except.ok totals
  | some r =>
    (availableNutrients t).foldlM (fun acc n =>
      match getVal r n with
      | none => Except.ok acc
      | some v =>
        if r.serving_size = 0 then Except.error "ZeroDivisionError"
        else Except.ok (addTotal acc n (v * item.2 / r.serving_size))) totals

/-- The totals pass restricted to the metacharacter-free fragment
(`nutrientTotalsRx_literal` proves every engine agrees with it there). -/
def nutrientTotals (t : Table) (items : List (String × ℚ)) :
    Except String (List (String × ℚ)) :=
  items.foldlM (itemStep t) []

/-- The `daily_value_pct` attached to one total: registry key match, then
`(total / rda) * 100` when the requirement's `rda` is truthy. -/
def dvPct (gender nutrient : String) (total : ℚ) : Option ℚ :=
  let key := match_nutrient_key nutrient
  if key = "" then none
  else
    match get_requirement key gender with
    | none => none
    | some req =>
      match req.rda with
      | some r => if r ≠ 0 then some (total / r * 100) else none
      | none => none

/-- `get_nutrient_profile`: the totals rows with their daily-value
percentages, under a regex engine. -/
def get_nutrient_profile (E : RegexEngine) (gender : String) (t : Table)
    (items : List (String × ℚ)) :
    Except String (List (String × ℚ × Option ℚ)) :=
  (nutrientTotalsRx E t items).map (fun totals =>
    totals.map (fun p => (p.1, p.2, dvPct gender p.1 p.2)))

/-! ## Requirement checking (`check_daily_requirements`) -/

/-- The three classification outcomes. -/
inductive NutrientStatus where
  | below_minimum
  | above_maximum
  | adequate
deriving DecidableEq, Repr

/-- Python truthiness of an optional number (`None` and `0` are falsy). -/
def pyTruthy : Option ℚ → Bool
  | none => false
  | some v => v != 0

/-- The classification chain of `check_daily_requirements`, with the source's
truthiness guards (`if rda and amount < rda`, `elif upper_limit and amount >
upper_limit`). -/
def classifyStatus (rda upper_limit : Option ℚ) (amount : ℚ) : NutrientStatus :=
  if pyTruthy rda ∧ amount < rda.getD 0 then NutrientStatus.below_minimum
  else if pyTruthy upper_limit ∧ upper_limit.getD 0 < amount then NutrientStatus.above_maximum
  else NutrientStatus.adequate

/-- Specification-side classification, written from the spec's words: the
same ordered rule but guarded by definedness of `rda`/`upper_limit` rather
than truthiness. -/
def specClassify (rda upper_limit : Option ℚ) (amount : ℚ) : NutrientStatus :=
  match rda with
  | some r =>
    if amount < r then NutrientStatus.below_minimum
    else
      match upper_limit with
      | some u => if u < amount then NutrientStatus.above_maximum else NutrientStatus.adequate
      | none => NutrientStatus.adequate
  | none =>
    match upper_limit with
    | some u => if u < amount then NutrientStatus.above_maximum else NutrientStatus.adequate
    | none => NutrientStatus.adequate

/-- One entry of the status dict built by `check_daily_requirements`. -/
structure StatusEntry where
  amount : ℚ
  min : Option ℚ
  max : Option ℚ
  unit : String
  status : NutrientStatus
deriving DecidableEq, Repr

/-- `check_daily_requirements`: every profile row whose nutrient matches a
registry key gets a status entry; unmatched rows are omitted.  (`get_requirement`
cannot return `none` on a matched key; the `none` arm mirrors that
unreachable path by omission.) -/
def check_daily_requirements (gender : String) (profile : List (String × ℚ)) :
    List (String × StatusEntry) :=
  profile.filterMap (fun p =>
    let matched := match_nutrient_key p.1
    if matched = "" then none
    else
      match get_requirement matched gender with
      | none => none
      | some req =>
        some (p.1, ⟨p.2, req.rda, req.upper_limit, req.unit,
          classifyStatus req.rda req.upper_limit p.2⟩))

/-! ## Helper lemmas -/

theorem mem_insertRowDesc (a r : RankedRow) (l : List RankedRow) :
    a ∈ insertRowDesc r l ↔ a = r ∨ a ∈ l := by
  induction l with
  | nil => simp [insertRowDesc]
  | cons x xs ih =>
    by_cases hx : x.amount_per_ounce < r.amount_per_ounce
    · simp [insertRowDesc, hx]
    · simp [insertRowDesc, hx, ih]
      tauto

theorem mem_sortRowsDesc (a : RankedRow) (l : List RankedRow) :
    a ∈ sortRowsDesc l ↔ a ∈ l := by
  induction l with
  | nil => simp [sortRowsDesc]
  | cons x xs ih =>
    simp only [sortRowsDesc, List.foldr_cons] at *
    rw [mem_insertRowDesc]
    simp [ih]

theorem profileFirst_mem {t : Table} {q : String} {r : FoodRecord}
    (h : profileFirst t q = some r) : r ∈ t.rows := by
  unfold profileFirst subFilter at h
  rw [List.head?_eq_some_iff] at h
  obtain ⟨ys, hys⟩ := h
  have : r ∈ t.rows.filter (fun s => strContains (lowerString s.description) (lowerString q)) := by
    rw [hys]; exact List.mem_cons_self _ _
  exact (List.mem_filter.mp this).1

theorem foldlM_except_ok {α β : Type} (f : β → α → Except String β) (l : List α)
    (h : ∀ b a, a ∈ l → ∃ y, f b a = Except.ok y) :
    ∀ init, ∃ res, l.foldlM f init = Except.ok res := by
  induction l with
  | nil => intro init; exact ⟨init, rfl⟩
  | cons a t ih =>
    intro init
    obtain ⟨y, hy⟩ := h init a (List.mem_cons_self _ _)
    obtain ⟨res, hres⟩ := ih (fun b a ha => h b a (List.mem_cons_of_mem _ ha)) y
    refine ⟨res, ?_⟩
    rw [List.foldlM_cons, hy]
    simpa [Except.bind] using hres

theorem profileFirstRx_literal (E : RegexEngine) (t : Table) (q : String)
    (h : regexFreeB (lowerString q) = true) :
    profileFirstRx E t q = Except.ok (profileFirst t q) := by
  obtain ⟨f, hc, hf⟩ := E.literal_ok (lowerString q) h
  unfold profileFirstRx
  rw [hc]
  unfold profileFirst subFilter
  simp only [hf]

theorem itemStepRx_literal (E : RegexEngine) (t : Table)
    (totals : List (String × ℚ)) (item : String × ℚ)
    (h : regexFreeB (lowerString item.1) = true) :
    itemStepRx E t totals item = itemStep t totals item := by
  unfold itemStepRx itemStep
  rw [profileFirstRx_literal E t item.1 h]
  cases profileFirst t item.1 <;> rfl

theorem foldlM_itemStep_congr (E : RegexEngine) (t : Table) :
    ∀ (items : List (String × ℚ)) (init : List (String × ℚ)),
      (∀ item ∈ items, regexFreeB (lowerString item.1) = true) →
      List.foldlM (itemStepRx E t) init items = List.foldlM (itemStep t) init items := by
  intro items
  induction items with
  | nil => intro init _; rfl
  | cons a l ih =>
    intro init h
    rw [List.foldlM_cons, List.foldlM_cons,
        itemStepRx_literal E t init a (h a (List.mem_cons_self _ _))]
    cases itemStep t init a with
    | error e => rfl
    | ok b => exact ih b (fun item hi => h item (List.mem_cons_of_mem _ hi))

theorem nutrientTotalsRx_literal (E : RegexEngine) (t : Table)
    (items : List (String × ℚ))
    (h : ∀ item ∈ items, regexFreeB (lowerString item.1) = true) :
    nutrientTotalsRx E t items = nutrientTotals t items :=
  foldlM_itemStep_congr E t items [] h

theorem lookupGuideline_mem :
    ∀ (l : List (String × NutrientRequirement)) (key : String) (v : NutrientRequirement),
      lookupGuideline l key = some v → ∃ k, (k, v) ∈ l := by
  intro l
  induction l with
  | nil => intro key v h; simp [lookupGuideline] at h
  | cons p rest ih =>
    intro key v h
    obtain ⟨k, w⟩ := p
    simp only [lookupGuideline] at h
    by_cases hk : k = key
    · rw [if_pos hk] at h
      cases h
      exact ⟨k, List.mem_cons_self _ _⟩
    · rw [if_neg hk] at h
      obtain ⟨k', hk'⟩ := ih key v h
      exact ⟨k', List.mem_cons_of_mem _ hk'⟩

/-- Every optional value is either absent or strictly positive. -/
def optPos (o : Option ℚ) : Prop := ∀ v, o = some v → 0 < v

theorem guidelines_pos :
    ∀ p ∈ guidelines, optPos p.2.rda_male ∧ optPos p.2.rda_female ∧ optPos p.2.upper_limit := by
  intro p hp
  fin_cases hp <;>
    refine ⟨fun v hv => ?_, fun v hv => ?_, fun v hv => ?_⟩ <;>
    simp only [Option.some.injEq, reduceCtorEq] at hv <;>
    (try subst hv) <;> norm_num

theorem get_requirement_pos {key gender : String} {req : Requirement}
    (h : get_requirement key gender = some req) :
    optPos req.rda ∧ optPos req.upper_limit := by
  unfold get_requirement at h
  cases hl : lookupGuideline guidelines key with
  | none => rw [hl] at h; exact absurd h (by simp)
  | some base =>
    rw [hl] at h
    obtain ⟨k, hk⟩ := lookupGuideline_mem _ _ _ hl
    obtain ⟨hm, hf, hu⟩ := guidelines_pos _ hk
    simp only [Option.some.injEq] at h
    subst h
    refine ⟨?_, hu⟩
    by_cases h1 : gender = "male" ∧ base.rda_male.isSome
    · simpa only [if_pos h1] using hm
    · rw [if_neg h1]
      by_cases h2 : gender = "female" ∧ base.rda_female.isSome
      · simpa only [if_pos h2] using hf
      · rw [if_neg h2]
        rcases hmm : base.rda_male with _ | m <;> rcases hff : base.rda_female with _ | f <;>
          intro v hv <;> simp only [Option.some.injEq, reduceCtorEq] at hv
        · exact hv ▸ hf f hff
        · exact hv ▸ hm m hmm
        · have h3 : 0 < m := hm m hmm
          have h4 : 0 < f := hf f hff
          rw [← hv]
          positivity

theorem classify_eq_spec {rda upper_limit : Option ℚ} (hr : optPos rda)
    (hu : optPos upper_limit) (a : ℚ) :
    classifyStatus rda upper_limit a = specClassify rda upper_limit a := by
  rcases rda with _ | r <;> rcases upper_limit with _ | u
  · simp [classifyStatus, specClassify, pyTruthy]
  · have hu' : u ≠ 0 := ne_of_gt (hu u rfl)
    simp [classifyStatus, specClassify, pyTruthy, hu']
  · have hr' : r ≠ 0 := ne_of_gt (hr r rfl)
    simp [classifyStatus, specClassify, pyTruthy, hr']
  · have hr' : r ≠ 0 := ne_of_gt (hr r rfl)
    have hu' : u ≠ 0 := ne_of_gt (hu u rfl)
    simp [classifyStatus, specClassify, pyTruthy, hr', hu']

theorem check_daily_mem_inv {gender : String} {profile : List (String × ℚ)}
    {n : String} {e : StatusEntry}
    (h : (n, e) ∈ check_daily_requirements gender profile) :
    ∃ req : Requirement, get_requirement (match_nutrient_key n) gender = some req ∧
      e.min = req.rda ∧ e.max = req.upper_limit ∧
      e.status = classifyStatus req.rda req.upper_limit e.amount := by
  unfold check_daily_requirements at h
  rw [List.mem_filterMap] at h
  obtain ⟨p, hp, hfp⟩ := h
  by_cases hm : match_nutrient_key p.1 = ""
  · simp [hm] at hfp
  · cases hr : get_requirement (match_nutrient_key p.1) gender with
    | none => simp [hm, hr] at hfp
    | some req =>
      simp only [hm, hr, if_neg, if_false, ite_false] at hfp
      simp only [Option.some.injEq, Prod.mk.injEq] at hfp
      obtain ⟨hn, he⟩ := hfp
      subst hn
      exact ⟨req, hr, by rw [← he], by rw [← he], by rw [← he]⟩

/-! ## Claim C7 -/

/-- C7: for every registry key, `get_requirement` with gender `"average"`
returns an `rda` that is the mean of `rda_male` and `rda_female` when both are
defined, the single defined value when only one is, and no `rda` when neither
is; an unknown key returns the empty result; for iron (`rda_male = 8`,
`rda_female = 18`) the average `rda` is `13`. -/
theorem c7_average_rda :
    (∀ key req, lookupGuideline guidelines key = some req →
      get_requirement key "average" =
        some ⟨req.name, averageRda req.rda_male req.rda_female,
              req.upper_limit, req.unit, req.rda_male, req.rda_female⟩) ∧
    (∀ key, lookupGuideline guidelines key = none →
      get_requirement key "average" = none) ∧
    get_requirement "iron_mg" "average" =
      some ⟨"Iron", some 13, some 45, "mg", some 8, some 18⟩ := by
  refine ⟨?_, ?_, ?_⟩
  · intro key req h
    unfold get_requirement
    rw [h]
    have h1 : ¬("average" = "male" ∧ req.rda_male.isSome) := by simp
    have h2 : ¬("average" = "female" ∧ req.rda_female.isSome) := by simp
    simp only [if_neg h1, if_neg h2]
    cases req.rda_male <;> cases req.rda_female <;> rfl
  · intro key h
    simp [get_requirement, h]
  · have h : ((8 : ℚ) + 18) / 2 = 13 := by norm_num
    simp [get_requirement, lookupGuideline, guidelines, h]

/-- Witness for C7 at concrete inputs: the iron key and an unknown key. -/
theorem c7_average_rda_witness :
    get_requirement "iron_mg" "average" =
      some ⟨"Iron", averageRda (some 8) (some 18), some 45, "mg", some 8, some 18⟩ ∧
    get_requirement "no_such_nutrient" "average" = none := by
  constructor
  · exact c7_average_rda.1 "iron_mg" ⟨some 8, some 18, some 45, "mg", "Iron"⟩ (by decide)
  · exact c7_average_rda.2.1 "no_such_nutrient" (by decide)

/-! ## Claim C9 -/

/-- C9: `get_requirement` with any gender string other than exactly `"male"`
or `"female"` behaves identically to `"average"`; and when the requested
sex's own RDA is undefined — gender `"male"` with `rda_male` absent, or
gender `"female"` with `rda_female` absent — the call falls through to the
same averaging/fallback branch. -/
theorem c9_gender_fallthrough :
    (∀ key gender, gender ≠ "male" → gender ≠ "female" →
      get_requirement key gender = get_requirement key "average") ∧
    (∀ key req, lookupGuideline guidelines key = some req → req.rda_male = none →
      get_requirement key "male" = get_requirement key "average") ∧
    (∀ key req, lookupGuideline guidelines key = some req → req.rda_female = none →
      get_requirement key "female" = get_requirement key "average") := by
  refine ⟨?_, ?_, ?_⟩
  · intro key gender h1 h2
    unfold get_requirement
    cases hl : lookupGuideline guidelines key with
    | none => rfl
    | some base =>
      have hm : ¬(gender = "male" ∧ base.rda_male.isSome) := fun h => h1 h.1
      have hf : ¬(gender = "female" ∧ base.rda_female.isSome) := fun h => h2 h.1
      have hm' : ¬("average" = "male" ∧ base.rda_male.isSome) := by simp
      have hf' : ¬("average" = "female" ∧ base.rda_female.isSome) := by simp
      simp only [if_neg hm, if_neg hf, if_neg hm', if_neg hf']
  · intro key req hl hm
    unfold get_requirement
    rw [hl]
    simp [hm]
  · intro key req hl hf
    unfold get_requirement
    rw [hl]
    simp [hf]

/-- Witness for C9 at concrete inputs: gender `"Male"` (capitalised, hence
not recognised) on the iron key, and genders `"male"` and `"female"` on
saturated fat (whose `rda_male` and `rda_female` are both undefined). -/
theorem c9_gender_fallthrough_witness :
    get_requirement "iron_mg" "Male" = get_requirement "iron_mg" "average" ∧
    get_requirement "saturated_fat_g" "male" =
      get_requirement "saturated_fat_g" "average" ∧
    get_requirement "saturated_fat_g" "female" =
      get_requirement "saturated_fat_g" "average" := by
  refine ⟨?_, ?_, ?_⟩
  · exact c9_gender_fallthrough.1 "iron_mg" "Male" (by decide) (by decide)
  · exact c9_gender_fallthrough.2.1 "saturated_fat_g"
      ⟨none, none, some 20, "g", "Saturated Fat"⟩ (by decide) rfl
  · exact c9_gender_fallthrough.2.2 "saturated_fat_g"
      ⟨none, none, some 20, "g", "Saturated Fat"⟩ (by decide) rfl

/-! ## Claim C10 -/

/-- C10: in `match_nutrient_key`'s fuzzy tier only the first condition (first
key segment inside the identifier) is case-insensitive; the second condition
(underscore-stripped key inside the underscore-stripped identifier) uses the
identifier's original case, so `"Vitamin_C_Mg"` fails the exact tier and the
fuzzy tier and yields the empty result, while the same identifiers in
lowercase (or with the uppercase letters outside the key's characters) do
match. -/
theorem c10_fuzzy_case_sensitivity :
    match_nutrient_key "Vitamin_C_Mg" = "" ∧
    match_nutrient_key "vitamin_c_mg_100g" = "vitamin_c_mg" ∧
    match_nutrient_key "Vitamin_C_Mg_100g" = "" ∧
    match_nutrient_key "vitamin_c_mg_EXTRA" = "vitamin_c_mg" := by
  refine ⟨?_, ?_, ?_, ?_⟩ <;> decide

/-! ## Claim C8 -/

/-- The one-row table of the spec's tier-fallback example. -/
def appleTable : Table :=
  ⟨["description", "serving_size", "vitamin_c_mg"],
   [⟨"Apple, Raw", 100, [("vitamin_c_mg", some 5)]⟩]⟩

/-- C8 counterexample: on the table with description `"Apple, Raw"`, the
query `"apple raw"` does NOT succeed at tier 2 — `"apple raw"` is not a
substring of the lowercased `"apple, raw"` (the comma intervenes) — and in
fact the whole resolution returns nothing, contradicting the claim that
tier 2 succeeds and the record's nutrients are returned. -/
theorem c8_counterexample :
    subFilter appleTable "apple raw" = [] ∧
    resolveFirst appleTable "apple raw" = none ∧
    get_food_nutrients appleTable "apple raw" = [] := by
  refine ⟨?_, ?_, ?_⟩ <;> decide

/-- C8 amended: on that table the query `"apple raw"` fails tier 1 (case
mismatch), fails tier 2 (comma prevents substring containment after
lowercasing), fails tier 3 (no parentheses to strip) and resolves nothing;
the query `"apple, raw"` shows the intended fallback: tier 1 fails on case,
tier 2 succeeds via lowercased substring containment and the record's
positive nutrients are returned. -/
theorem c8_amended :
    exactMatches appleTable "apple raw" = [] ∧
    subFilter appleTable "apple raw" = [] ∧
    subFilter appleTable (trimmedString (stripParens "apple raw")) = [] ∧
    resolveFirst appleTable "apple raw" = none ∧
    get_food_nutrients appleTable "apple raw" = [] ∧
    exactMatches appleTable "apple, raw" = [] ∧
    resolveFirst appleTable "apple, raw" =
      some ⟨"Apple, Raw", 100, [("vitamin_c_mg", some 5)]⟩ ∧
    get_food_nutrients appleTable "apple, raw" = [("Apple, Raw", "vitamin_c_mg", 5)] := by
  refine ⟨?_, ?_, ?_, ?_, ?_, ?_, ?_, ?_⟩ <;> decide

/-! ## Claim C2 -/

/-- A table on which `get_nutrient_profile`'s matcher and the tiered
resolver disagree: an exact match exists (`"Apple"`) but an earlier row
(`"crabapple"`) already contains the lowercased query as a substring. -/
def crabappleTable : Table :=
  ⟨["description", "serving_size"],
   [⟨"crabapple", 1, []⟩, ⟨"Apple", 1, []⟩]⟩

/-- C2 counterexample: for the query `"Apple"` the record
`get_nutrient_profile` selects (first lowercased-substring match,
`"crabapple"`) differs from the first record of `get_food_nutrients`' tiered
resolution (tier-1 exact match, `"Apple"`). -/
theorem c2_counterexample :
    profileFirst crabappleTable "Apple" = some ⟨"crabapple", 1, []⟩ ∧
    resolveFirst crabappleTable "Apple" = some ⟨"Apple", 1, []⟩ ∧
    profileFirst crabappleTable "Apple" ≠ resolveFirst crabappleTable "Apple" := by
  refine ⟨?_, ?_, ?_⟩ <;> decide

/-- C2 amended: `get_nutrient_profile` selects its record by passing the raw
lowercased query to `str.contains` as a regex, unlike the escaped tiered
resolver.  Whenever the query is free of regex metacharacters, no row is an
exact (tier-1) match, and the lowercased-substring tier is non-empty, every
regex engine makes the profile's selection succeed with exactly the first
record of the tiered resolution.  Outside those conditions the two can
differ: when an exact match exists (the counterexample), when only the
parenthesis-stripped tier would match, or when the query carries regex
metacharacters. -/
theorem c2_amended (E : RegexEngine) (t : Table) (q : String)
    (hfree : regexFreeB (lowerString q) = true)
    (hexact : ∀ r ∈ t.rows, r.description ≠ q)
    (hsome : (profileFirst t q).isSome) :
    profileFirstRx E t q = Except.ok (resolveFirst t q) := by
  rw [profileFirstRx_literal E t q hfree]
  have h1 : exactMatches t q = [] := by
    unfold exactMatches
    rw [List.filter_eq_nil_iff]
    intro r hr
    simp [hexact r hr]
  have h2 : ¬ (subFilter t q).isEmpty := by
    unfold profileFirst at hsome
    rw [Option.isSome_iff_ne_none] at hsome
    intro hempty
    rw [List.isEmpty_iff] at hempty
    rw [hempty] at hsome
    exact hsome rfl
  unfold resolveFirst resolveMatches
  rw [h1]
  simp only [List.isEmpty_nil, if_true]
  rw [if_neg h2]
  rfl

/-- Witness for C2 amended: a table with the single row `"Banana"` and the
metacharacter-free query `"ban"` (no exact match, tier-2 hit), under the
concrete literal engine. -/
theorem c2_amended_witness :
    profileFirstRx literalEngine
        ⟨["description", "serving_size"], [⟨"Banana", 1, []⟩]⟩ "ban" =
      Except.ok
        (resolveFirst ⟨["description", "serving_size"], [⟨"Banana", 1, []⟩]⟩ "ban") :=
  c2_amended literalEngine ⟨["description", "serving_size"], [⟨"Banana", 1, []⟩]⟩
    "ban" (by decide) (by decide) (by decide)

/-! ## Claims C3 and C4: the ranking pipeline -/

/-- Inversion for membership in `get_top_foods_for_nutrient`'s output: every
output row was built from some table row by the `with_columns` formula after
the `> 0` filter on the selected nutrient column. -/
theorem mem_top_foods {t : Table} {name : String} {n : Nat} {row : RankedRow}
    (h : row ∈ get_top_foods_for_nutrient t name n) :
    ∃ r ∈ t.rows, ∃ ncol v, getVal r ncol = some v ∧ 0 < v ∧
      row = ⟨r.description, v, r.serving_size, v * 28.35 / r.serving_size⟩ := by
  unfold get_top_foods_for_nutrient at h
  cases hc : (t.cols.filter fun c => strContains (lowerString c) (lowerString name)).head? with
  | none => rw [hc] at h; simp at h
  | some ncol =>
    rw [hc] at h
    have h1 := List.mem_of_mem_take h
    rw [mem_sortRowsDesc, List.mem_filterMap] at h1
    obtain ⟨r, hr, hfr⟩ := h1
    refine ⟨r, hr, ncol, ?_⟩
    cases hv : getVal r ncol with
    | none => rw [hv] at hfr; simp at hfr
    | some v =>
      rw [hv] at hfr
      dsimp only at hfr
      by_cases hpos : 0 < v
      · rw [if_pos hpos] at hfr
        simp only [Option.some.injEq] at hfr
        exact ⟨v, rfl, hpos, hfr.symm⟩
      · rw [if_neg hpos] at hfr
        simp at hfr

/-- A one-row table where the per-ounce formula is visible directly. -/
def proteinTable : Table :=
  ⟨["description", "serving_size", "protein_g"],
   [⟨"x", 1, [("protein_g", some 1)]⟩]⟩

/-- C3 counterexample: for a record with per-serving amount `1` and serving
size `1`, the reported per-common-unit value is `28.35`, not
`1 * (28.3495 / 1)` — the source's conversion constant is the float literal
`28.35`, not `28.3495`. -/
theorem c3_counterexample :
    get_top_foods_for_nutrient proteinTable "protein" 20 = [⟨"x", 1, 1, 28.35⟩] ∧
    ¬ ((28.35 : ℚ) = 1 * (28.3495 / 1)) := by
  constructor
  · have h : (1 : ℚ) * 28.35 / 1 = 28.35 := by norm_num
    simp [get_top_foods_for_nutrient, proteinTable, getVal, sortRowsDesc, insertRowDesc,
      lowerString, strContains, hasSubChars, leadsChars, h]
  · norm_num

/-- C3 amended: for every record in the ranking output, the per-common-unit
value equals `amount_per_serving * (28.35 / serving_size_grams)`: the
normalization constant is the source's `28.35`, not `28.3495`. -/
theorem c3_amended (t : Table) (name : String) (n : Nat) (row : RankedRow)
    (h : row ∈ get_top_foods_for_nutrient t name n) :
    row.amount_per_ounce = row.amount_per_100g * (28.35 / row.serving_size) := by
  obtain ⟨r, hr, ncol, v, hv, hpos, hrow⟩ := mem_top_foods h
  subst hrow
  show v * 28.35 / r.serving_size = v * (28.35 / r.serving_size)
  rw [mul_div_assoc]

/-- Witness for C3 amended at the concrete one-row table. -/
theorem c3_amended_witness :
    (28.35 : ℚ) = 1 * (28.35 / 1) :=
  c3_amended proteinTable "protein" 20 ⟨"x", 1, 1, 28.35⟩ (by
    have h : (1 : ℚ) * 28.35 / 1 = 28.35 := by norm_num
    simp [get_top_foods_for_nutrient, proteinTable, getVal, sortRowsDesc, insertRowDesc,
      lowerString, strContains, hasSubChars, leadsChars, h])

/-- A one-row table whose only record has a negative serving size. -/
def negServingTable : Table :=
  ⟨["description", "serving_size", "protein_g"],
   [⟨"neg", -10, [("protein_g", some 5)]⟩]⟩

/-- C4 counterexample: a record with `serving_size = -10` is NOT excluded
from the ranking output — it is the sole output row, with the division
artifact `5 * 28.35 / (-10)` — contradicting the claimed exclusion of
non-positive serving sizes. -/
theorem c4_counterexample :
    get_top_foods_for_nutrient negServingTable "protein" 20 =
      [⟨"neg", 5, -10, -(567 / 40)⟩] ∧ ((-10 : ℚ) ≤ 0) := by
  constructor
  · have h : (5 : ℚ) * 28.35 / (-10) = -(567 / 40) := by norm_num
    simp [get_top_foods_for_nutrient, negServingTable, getVal, sortRowsDesc, insertRowDesc,
      lowerString, strContains, hasSubChars, leadsChars, h]
  · norm_num

/-- C4 amended: the ranking filters only on the selected nutrient column —
every output row has a strictly positive per-serving amount — while
`serving_size` is never checked, so the division is performed on whatever
serving size the record carries (including zero or negative ones). -/
theorem c4_amended (t : Table) (name : String) (n : Nat) (row : RankedRow)
    (h : row ∈ get_top_foods_for_nutrient t name n) :
    0 < row.amount_per_100g := by
  obtain ⟨r, hr, ncol, v, hv, hpos, hrow⟩ := mem_top_foods h
  subst hrow
  exact hpos

/-- Witness for C4 amended at the negative-serving table. -/
theorem c4_amended_witness : (0 : ℚ) < 5 :=
  c4_amended negServingTable "protein" 20 ⟨"neg", 5, -10, -(567 / 40)⟩ (by
    have h : (5 : ℚ) * 28.35 / (-10) = -(567 / 40) := by norm_num
    simp [get_top_foods_for_nutrient, negServingTable, getVal, sortRowsDesc, insertRowDesc,
      lowerString, strContains, hasSubChars, leadsChars, h])

/-! ## Claim C5: cleaning/deduplication -/

/-- Two records sharing the description `"a"`. -/
def dupRecordA : FoodRecord := ⟨"a", 1, []⟩

/-- Second occurrence of description `"a"` (different serving size). -/
def dupRecordB : FoodRecord := ⟨"a", 2, []⟩

/-- C5 counterexample: keeping the SECOND occurrence is a permitted outcome
of `df.unique(subset=["description"])` (default `keep="any"`,
`maintain_order=False`), and it differs from the first-occurrence-wins
result, so the cleaning pass does not guarantee first occurrence wins. -/
theorem c5_counterexample :
    cleanRel [dupRecordA, dupRecordB] [dupRecordB] ∧
    [dupRecordB] ≠ (dedupFirstWins [dupRecordA, dupRecordB]).map fillRecord := by
  constructor
  · exact ⟨[dupRecordB], by decide, by decide⟩
  · decide

/-- C5 amended: the cleaning pass deduplicates by description — distinct
descriptions out, all input descriptions covered, every survivor a
null-filled input row — but which occurrence survives and in what order is
unspecified by the default polars `unique`. -/
theorem c5_amended (input output : List FoodRecord) (h : cleanRel input output) :
    (output.map FoodRecord.description).Nodup ∧
    (∀ r ∈ output, ∃ s ∈ input, r = fillRecord s) ∧
    (∀ s ∈ input, ∃ r ∈ output, r.description = s.description) := by
  obtain ⟨mid, ⟨hsub, hnodup, hcover⟩, hout⟩ := h
  subst hout
  have hcomp : FoodRecord.description ∘ fillRecord = FoodRecord.description :=
    funext fun r => rfl
  refine ⟨?_, ?_, ?_⟩
  · rw [List.map_map, hcomp]
    exact hnodup
  · intro r hr
    rw [List.mem_map] at hr
    obtain ⟨s, hs, hfs⟩ := hr
    exact ⟨s, hsub s hs, hfs.symm⟩
  · intro s hs
    obtain ⟨m, hm, hdesc⟩ := hcover s hs
    exact ⟨fillRecord m, List.mem_map_of_mem _ hm, hdesc⟩

/-- Witness for C5 amended at the two-record input with the second
occurrence surviving. -/
theorem c5_amended_witness :
    (([dupRecordB].map FoodRecord.description).Nodup ∧
     (∀ r ∈ [dupRecordB], ∃ s ∈ [dupRecordA, dupRecordB], r = fillRecord s) ∧
     (∀ s ∈ [dupRecordA, dupRecordB], ∃ r ∈ [dupRecordB],
        r.description = s.description)) :=
  c5_amended [dupRecordA, dupRecordB] [dupRecordB] ⟨[dupRecordB], by decide, by decide⟩

/-! ## Claim C6: requirement classification -/

/-- C6 counterexample: for magnesium with gender `"average"` the RDA is
`(400 + 310) / 2 = 355` while the upper limit is `350`.  An amount exactly
equal to the RDA (`355`) classifies `above_maximum`, and an amount exactly
equal to the upper limit (`350`) classifies `below_minimum` — neither is
`adequate`, contradicting the claim's boundary sentence. -/
theorem c6_counterexample :
    check_daily_requirements "average" [("magnesium_mg", 355)] =
      [("magnesium_mg", ⟨355, some 355, some 350, "mg",
        NutrientStatus.above_maximum⟩)] ∧
    check_daily_requirements "average" [("magnesium_mg", 350)] =
      [("magnesium_mg", ⟨350, some 355, some 350, "mg",
        NutrientStatus.below_minimum⟩)] ∧
    NutrientStatus.above_maximum ≠ NutrientStatus.adequate ∧
    NutrientStatus.below_minimum ≠ NutrientStatus.adequate := by
  have h : ((400 : ℚ) + 310) / 2 = 355 := by norm_num
  refine ⟨?_, ?_, by decide, by decide⟩
  · simp [check_daily_requirements, match_nutrient_key, lookupGuideline, guidelines,
      get_requirement, classifyStatus, pyTruthy, h]
    norm_num
  · simp [check_daily_requirements, match_nutrient_key, lookupGuideline, guidelines,
      get_requirement, classifyStatus, pyTruthy, h]
    norm_num

/-- An amount exactly equal to a defined RDA is never `below_minimum` under
the definedness classification (the `<` comparison is strict). -/
theorem specClassify_rda_boundary (upper_limit : Option ℚ) (a : ℚ) :
    specClassify (some a) upper_limit a ≠ NutrientStatus.below_minimum := by
  unfold specClassify
  dsimp only
  rw [if_neg (lt_irrefl a)]
  cases upper_limit with
  | none => simp
  | some u =>
    by_cases hu : u < a
    · simp [hu]
    · simp [hu]

/-- An amount exactly equal to a defined upper limit is never
`above_maximum` under the definedness classification (the `>` comparison is
strict). -/
theorem specClassify_upper_boundary (rda : Option ℚ) (a : ℚ) :
    specClassify rda (some a) a ≠ NutrientStatus.above_maximum := by
  cases rda with
  | none =>
    unfold specClassify
    dsimp only
    rw [if_neg (lt_irrefl a)]
    simp
  | some r =>
    unfold specClassify
    dsimp only
    by_cases hr : a < r
    · simp [hr]
    · simp [hr, lt_self_iff_false]

/-- C6 amended: every entry of `check_daily_requirements` is classified by
the ordered definedness rule (`below_minimum` iff an RDA is defined and
`amount < rda`, else `above_maximum` iff an upper limit is defined and
`amount > upper_limit`, else `adequate`); an amount exactly equal to the RDA
never classifies `below_minimum` and an amount exactly equal to the upper
limit never classifies `above_maximum` — but such an amount is `adequate`
only when the other bound's check also passes (for magnesium, whose upper
limit sits below its RDA, it is not). -/
theorem c6_amended (gender : String) (profile : List (String × ℚ)) (n : String)
    (e : StatusEntry) (h : (n, e) ∈ check_daily_requirements gender profile) :
    e.status = specClassify e.min e.max e.amount ∧
    (e.min = some e.amount → e.status ≠ NutrientStatus.below_minimum) ∧
    (e.max = some e.amount → e.status ≠ NutrientStatus.above_maximum) := by
  obtain ⟨req, hreq, hmin, hmax, hstatus⟩ := check_daily_mem_inv h
  obtain ⟨hrpos, hupos⟩ := get_requirement_pos hreq
  have hspec : e.status = specClassify e.min e.max e.amount := by
    rw [hstatus, hmin, hmax]
    exact classify_eq_spec hrpos hupos e.amount
  refine ⟨hspec, ?_, ?_⟩
  · intro hemin hbelow
    rw [hspec, hemin] at hbelow
    exact specClassify_rda_boundary e.max e.amount hbelow
  · intro hemax habove
    rw [hspec, hemax] at habove
    exact specClassify_upper_boundary e.min e.amount habove

/-- Witness for C6 amended at the magnesium entry with amount `355`. -/
theorem c6_amended_witness :
    (NutrientStatus.above_maximum = specClassify (some 355) (some 350) 355) ∧
    (some (355 : ℚ) = some (355 : ℚ) →
      NutrientStatus.above_maximum ≠ NutrientStatus.below_minimum) ∧
    (some (350 : ℚ) = some (355 : ℚ) →
      NutrientStatus.above_maximum ≠ NutrientStatus.above_maximum) :=
  c6_amended "average" [("magnesium_mg", 355)] "magnesium_mg"
    ⟨355, some 355, some 350, "mg", NutrientStatus.above_maximum⟩ (by
      have h : ((400 : ℚ) + 310) / 2 = 355 := by norm_num
      simp [check_daily_requirements, match_nutrient_key, lookupGuideline, guidelines,
        get_requirement, classifyStatus, pyTruthy, h]
      norm_num)

/-! ## Claim C1: aggregation validation -/

/-- One-row table with a negative serving size. -/
def negContribTable : Table :=
  ⟨["description", "serving_size", "protein_g"],
   [⟨"bad", -5, [("protein_g", some 10)]⟩]⟩

/-- One-row table with a zero serving size. -/
def zeroServingTable : Table :=
  ⟨["description", "serving_size", "protein_g"],
   [⟨"zero", 0, [("protein_g", some 5)]⟩]⟩

/-- Concrete totals on the negative-serving table (the query `"bad"` is
metacharacter-free, so this is the aggregation's behavior under every regex
engine): the contribution is scaled to `10 * 10 / (-5) = -20` and added. -/
theorem negContrib_totals :
    nutrientTotals negContribTable [("bad", 10)] =
      Except.ok [("protein_g", -20)] := by
  have h : (10 : ℚ) * 10 / (-5) = -20 := by norm_num
  simp [nutrientTotals, itemStep, profileFirst, subFilter, availableNutrients,
    excludedCols, getVal, addTotal, negContribTable, lowerString, strContains,
    hasSubChars, leadsChars, List.foldlM, h]

/-- Concrete totals on the zero-serving table (again a metacharacter-free
query): the first division raises `ZeroDivisionError`. -/
theorem zeroServing_totals :
    nutrientTotals zeroServingTable [("zero", 10)] =
      Except.error "ZeroDivisionError" := by
  simp [nutrientTotals, itemStep, profileFirst, subFilter, availableNutrients,
    excludedCols, getVal, zeroServingTable, lowerString, strContains, hasSubChars,
    leadsChars, List.foldlM]

/-- C1 counterexample: a contribution whose matched record has
`serving_size = -5` (not `> 0`) is NOT skipped — it lands in the totals as
`10 * 10 / (-5) = -20` — and a matched record with `serving_size = 0` raises
`ZeroDivisionError`, aborting the whole aggregation instead of being
skipped.  (Both queries are metacharacter-free, so these are the program's
outcomes under every regex engine.) -/
theorem c1_counterexample :
    nutrientTotals negContribTable [("bad", 10)] = Except.ok [("protein_g", -20)] ∧
    nutrientTotals negContribTable [("bad", 10)] ≠ Except.ok [] ∧
    nutrientTotals zeroServingTable [("zero", 10)] =
      Except.error "ZeroDivisionError" :=
  ⟨negContrib_totals, by rw [negContrib_totals]; simp, zeroServing_totals⟩

/-- C1 amended: `get_nutrient_profile`'s totals pass performs no positivity
validation.  For items whose queries are free of regex metacharacters and
whose matched record (if any) has nonzero `serving_size`, the aggregation
completes under every regex engine with totals — including contributions
from negative `consumed_grams` or negative `serving_size`, which are scaled
and added rather than skipped — while a matched record with
`serving_size = 0` raises `ZeroDivisionError` and aborts the whole
aggregation (as does, outside the modelled fragment, a query whose regex
fails to compile). -/
theorem c1_amended :
    (∀ (E : RegexEngine) (t : Table) (items : List (String × ℚ)),
      (∀ item ∈ items, regexFreeB (lowerString item.1) = true) →
      (∀ item r, item ∈ items → profileFirst t item.1 = some r →
        r.serving_size ≠ 0) →
      ∃ res, nutrientTotalsRx E t items = Except.ok res) ∧
    (∀ E : RegexEngine,
      nutrientTotalsRx E zeroServingTable [("zero", 10)] =
        Except.error "ZeroDivisionError") ∧
    (∀ E : RegexEngine,
      nutrientTotalsRx E negContribTable [("bad", 10)] =
        Except.ok [("protein_g", -20)]) := by
  refine ⟨?_, ?_, ?_⟩
  · intro E t items hfree hserve
    unfold nutrientTotalsRx
    apply foldlM_except_ok
    intro totals item hitem
    rw [itemStepRx_literal E t totals item (hfree item hitem)]
    unfold itemStep
    cases hpf : profileFirst t item.1 with
    | none => exact ⟨totals, rfl⟩
    | some r =>
      apply foldlM_except_ok
      intro acc ncol _
      cases hv : getVal r ncol with
      | none => exact ⟨acc, rfl⟩
      | some v =>
        dsimp only
        rw [if_neg (hserve item r hitem hpf)]
        exact ⟨_, rfl⟩
  · intro E
    rw [nutrientTotalsRx_literal E _ _ (by decide)]
    exact zeroServing_totals
  · intro E
    rw [nutrientTotalsRx_literal E _ _ (by decide)]
    exact negContrib_totals

/-- Witness for C1 amended: under the concrete literal engine, the
negative-serving table's matched record has nonzero serving size, so its
aggregation completes. -/
theorem c1_amended_witness :
    ∃ res, nutrientTotalsRx literalEngine negContribTable [("bad", 10)] =
      Except.ok res :=
  c1_amended.1 literalEngine negContribTable [("bad", 10)] (by decide) (by
    intro item r hitem hpf
    simp only [List.mem_singleton] at hitem
    subst hitem
    dsimp only at hpf
    have heq : profileFirst negContribTable "bad" =
        some ⟨"bad", -5, [("protein_g", some 10)]⟩ := by decide
    rw [heq] at hpf
    injection hpf with h
    subst h
    decide)
